import Mathlib

/-!
Verification of the BudgetTracker CSV pipeline (`src/app.py`).

The program loads a CSV of transactions with pandas, validates the column
set, coerces the `date` and `amount` columns, fills text defaults, sorts by
date, classifies each row as income/expense by amount sign, and aggregates
totals per category for a report.

We embed the pipeline shallowly: a CSV cell is a `Value` (null, text,
number or datetime — the value kinds a pandas column cell can hold here),
a row is a record of six cells, and each pipeline function of `app.py`
becomes a Lean function over lists of rows.  Pandas/numpy primitives
(`pd.to_datetime`, `pd.to_numeric`, `fillna(..).astype(str)`, `groupby.sum`,
comparison with NaN) are modelled by small total functions that reproduce
their documented behaviour on the value kinds that occur in this pipeline.
-/

namespace BudgetTracker

/-- A cell value as it can appear in a pandas column of this program:
missing (NaN/NaT), text, numeric, or datetime.  Datetimes are encoded as
integers ordered chronologically. -/
inductive Value where
  | vNull : Value
  | vStr : String → Value
  | vNum : Rat → Value
  | vDate : Int → Value
deriving DecidableEq, Repr

/-- Whitespace for the model of the Python `str.strip` function. -/
def isSpaceChar (c : Char) : Bool :=
  c = ' ' ∨ c = '\t' ∨ c = '\n' ∨ c = '\r'

/-- Strip leading and trailing whitespace from a character list
(model of the Python method `str.strip()`). -/
def trimChars (l : List Char) : List Char :=
  ((l.dropWhile isSpaceChar).reverse.dropWhile isSpaceChar).reverse

/-- ASCII lowercasing of one character (model of the Python method `str.lower()` on
the ASCII labels this program compares). -/
def lowerChar (c : Char) : Char :=
  if 'A' ≤ c ∧ c ≤ 'Z' then Char.ofNat (c.toNat + 32) else c

/-- Model of the Python expression `str.strip().lower()` applied to a column label. -/
def stripLower (s : String) : String :=
  ⟨(trimChars s.data).map lowerChar⟩

/-- Split a character list at every occurrence of `sep`
(model of the Python method `str.split(sep)`). -/
def splitOnChar (sep : Char) : List Char → List (List Char)
  | [] => [[]]
  | c :: rest =>
    match splitOnChar sep rest with
    | [] => [[c]]
    | g :: gs => if c = sep then [] :: g :: gs else (c :: g) :: gs

/-- Value of a nonempty all-digit character list, else `none`. -/
def digitsVal? (cs : List Char) : Option Nat :=
  if cs ≠ [] ∧ cs.all Char.isDigit then
    some (cs.foldl (fun a c => a * 10 + (c.toNat - 48)) 0)
  else none

/-- Model of `pd.to_datetime(s, errors="coerce", dayfirst=True)` on a string
cell: parses `DD/MM/YYYY` (day first), yielding an integer key
`y*10000 + m*100 + d` that orders chronologically; anything else coerces to
null (NaT). -/
def parseDate (s : String) : Option Int :=
  match splitOnChar '/' (trimChars s.data) with
  | [d, m, y] =>
    match digitsVal? d, digitsVal? m, digitsVal? y with
    | some dn, some mn, some yn =>
      if 1 ≤ dn ∧ dn ≤ 31 ∧ 1 ≤ mn ∧ mn ≤ 12 then
        some ((yn : Int) * 10000 + (mn : Int) * 100 + (dn : Int))
      else none
    | _, _, _ => none
  | _ => none

/-- Model of `pd.to_numeric(s, errors="coerce")` on a string cell: parses a
signed decimal numeral; anything else (e.g. `"N/A"`) coerces to null (NaN). -/
def parseAmount (s : String) : Option Rat :=
  let t := trimChars s.data
  let sb : Rat × List Char :=
    match t with
    | '-' :: rest => (-1, rest)
    | '+' :: rest => (1, rest)
    | _ => (1, t)
  match splitOnChar '.' sb.2 with
  | [ip] => (digitsVal? ip).map (fun n => sb.1 * (n : Rat))
  | [ip, fp] =>
    match digitsVal? ip, digitsVal? fp with
    | some n, some f =>
      some (sb.1 * ((n : Rat) + (f : Rat) / ((10 : Rat) ^ fp.length)))
    | _, _ => none
  | _ => none

/-- Model of `pd.to_datetime(·, errors="coerce", dayfirst=True)` applied to
one cell (app.py line 49): datetimes pass through, null stays null, strings
are parsed (unparseable → NaT), numbers are read as epoch offsets. -/
def toDatetime : Value → Value
  | .vNull => .vNull
  | .vDate t => .vDate t
  | .vStr s =>
    match parseDate s with
    | some t => .vDate t
    | none => .vNull
  | .vNum q => .vDate q.floor

/-- Model of `pd.to_numeric(·, errors="coerce")` applied to one cell
(app.py line 55): numbers pass through, null stays null, strings are parsed
(unparseable → NaN), datetimes are read as their integer representation. -/
def toNumeric : Value → Value
  | .vNull => .vNull
  | .vNum q => .vNum q
  | .vStr s =>
    match parseAmount s with
    | some q => .vNum q
    | none => .vNull
  | .vDate t => .vNum (t : Rat)

/-- Model of `.fillna(dflt).astype(str)` applied to one cell
(app.py lines 59-62): null becomes the default string, every other cell
becomes its text rendering (strings unchanged — in particular NOT trimmed). -/
def fillStr (dflt : String) : Value → Value
  | .vNull => .vStr dflt
  | .vStr s => .vStr s
  | .vNum q => .vStr (toString q)
  | .vDate t => .vStr (toString t)

/-- One table row: the six columns of the expected schema.  Cell values as
read by `pd.read_csv` are text or null; after normalization they are typed. -/
structure RawRow where
  date : Value
  amount : Value
  category : Value
  txType : Value
  txDetails : Value
  merchant : Value
deriving DecidableEq, Repr

/-- The per-row field normalization of `load_csv` (app.py lines 48-62):
date parsing, amount coercion, and text-field defaulting. -/
def normalizeRow (r : RawRow) : RawRow where
  date := toDatetime r.date
  amount := toNumeric r.amount
  category := fillStr "Uncategorized" r.category
  txType := fillStr "" r.txType
  txDetails := fillStr "" r.txDetails
  merchant := fillStr "" r.merchant

/-- `EXPECTED_COLS` (app.py line 24). -/
def EXPECTED_COLS : List String :=
  ["date", "amount", "transaction type", "transaction details", "category",
   "merchant name"]

/-- The missing-column computation of `load_csv` (app.py lines 40-43):
column labels are stripped and lowercased, then every expected column not
present is collected, in `EXPECTED_COLS` order. -/
def missingCols (cols : List String) : List String :=
  EXPECTED_COLS.filter (fun c => !((cols.map stripLower).contains c))

/-- The failure modes of `load_csv`: HTTP 404 for a missing file, HTTP 400
carrying the full list of missing columns (app.py lines 37, 46). -/
inductive LoadError where
  | notFound : LoadError
  | schemaError : List String → LoadError
deriving DecidableEq, Repr

/-- The sort key of app.py line 66: the normalized date cell. -/
def dateKey (r : RawRow) : Option Int :=
  match r.date with
  | .vDate t => some t
  | _ => none

/-- Ascending comparison on date keys with nulls last
(pandas `sort_values(ascending=True)` default `na_position="last"`). -/
def dateLe (a b : RawRow) : Bool :=
  match dateKey a, dateKey b with
  | some x, some y => x ≤ y
  | some _, none => true
  | none, some _ => false
  | none, none => true

/-- `load_csv` after the file read (app.py lines 40-70): validate the column
set (abort with every missing name), normalize the fields of each row, and sort
by the normalized date. -/
def load_csv (cols : List String) (rows : List RawRow) :
    Except LoadError (List RawRow) :=
  let missing := missingCols cols
  if missing ≠ [] then
    .error (.schemaError missing)
  else
    .ok ((rows.map normalizeRow).mergeSort dateLe)

/-- Model of the pandas comparison `amount > 0` on a cell: true only for a
positive number; NaN (null) compares false. -/
def gtZero : Value → Bool
  | .vNum q => decide (0 < q)
  | _ => false

/-- Model of the pandas comparison `amount < 0` on a cell: true only for a
negative number; NaN (null) compares false. -/
def ltZero : Value → Bool
  | .vNum q => decide (q < 0)
  | _ => false

/-- A row with the two derived flag columns that `classify_transactions`
adds (app.py lines 74-75). -/
structure ClassifiedRow where
  row : RawRow
  is_income : Bool
  is_expense : Bool
deriving DecidableEq, Repr

/-- `classify_transactions` (app.py lines 73-76): adds `is_income`
(`amount > 0`) and `is_expense` (`amount < 0`) to each row. -/
def classify_transactions (df : List RawRow) : List ClassifiedRow :=
  df.map (fun r => ⟨r, gtZero r.amount, ltZero r.amount⟩)

/-- The numeric contribution of a cell to a pandas column sum: its value if
numeric, otherwise 0 (pandas `sum()` skips NaN). -/
def amt : Value → Rat
  | .vNum q => q
  | _ => 0

/-- Sum of the `amount` column over a classified table (pandas `sum()`
semantics: nulls contribute 0). -/
def amtSum (df : List ClassifiedRow) : Rat :=
  (df.map (fun r => amt r.row.amount)).sum

/-- The summed `amount` of the group of one category value
(`groupby("category")["amount"].sum()` for that group). -/
def catSum (df : List ClassifiedRow) (c : Value) : Rat :=
  amtSum (df.filter (fun r => r.row.category == c))

/-- The distinct category values of a table, null excluded (pandas
`groupby` drops the NaN key by default). -/
def categories (df : List ClassifiedRow) : List Value :=
  ((df.map (fun r => r.row.category)).filter (fun v => !(v == Value.vNull))).dedup

/-- The category totals of `generate_chart` (app.py line 80):
`df.groupby("category")["amount"].sum().sort_values()` — one `(category,
summed amount)` pair per distinct category, ordered ascending by sum. -/
def category_sums (df : List ClassifiedRow) : List (Value × Rat) :=
  ((categories df).map (fun c => (c, catSum df c))).mergeSort
    (fun a b => decide (a.2 ≤ b.2))

/-- `spent_per_category` (app.py line 128):
`category_totals[category_totals < 0].sort_values()` — the entries with
negative sum, ordered ascending by sum. -/
def spent_per_category (df : List ClassifiedRow) : List (Value × Rat) :=
  ((category_sums df).filter (fun p => decide (p.2 < 0))).mergeSort
    (fun a b => decide (a.2 ≤ b.2))

/-- `total_income` (app.py line 122): sum of `amount` over the rows whose
`is_income` flag is set. -/
def total_income (df : List ClassifiedRow) : Rat :=
  amtSum (df.filter (fun r => r.is_income))

/-- `total_expense` (app.py line 123): sum of `amount` over the rows whose
`is_expense` flag is set. -/
def total_expense (df : List ClassifiedRow) : Rat :=
  amtSum (df.filter (fun r => r.is_expense))

/-- The report value assembled by the `/report` route (app.py lines
119-141): scalar totals, net, the classified table, and the expense-only
category totals. -/
structure Report where
  income : Rat
  expense : Rat
  net : Rat
  table : List ClassifiedRow
  spent : List (Value × Rat)
deriving DecidableEq, Repr

/-- The pipeline of the `report` route after `load_csv` (app.py lines 119-141):
classify the loaded table, compute the totals and net, and the expense
category totals. -/
def report (df0 : List RawRow) : Report :=
  let df := classify_transactions df0
  { income := total_income df
    expense := total_expense df
    net := total_income df + total_expense df
    table := df
    spent := spent_per_category df }

/-- Example row: income of 100 on 01/02/2024 in category Salary. -/
def exRowA : RawRow :=
  ⟨.vStr "01/02/2024", .vStr "100", .vStr "Salary", .vNull, .vNull, .vNull⟩

/-- Example row: expense of 30 on 02/02/2024 in category Food. -/
def exRowB : RawRow :=
  ⟨.vStr "02/02/2024", .vStr "-30", .vStr "Food", .vNull, .vNull, .vNull⟩

/-- Example row with an already-typed negative amount. -/
def exRawNeg : RawRow :=
  ⟨.vNull, .vNum (-30), .vStr "Food", .vNull, .vNull, .vNull⟩

/-- Example row whose category text carries surrounding whitespace. -/
def exRowTrim : RawRow :=
  ⟨.vNull, .vNum 5, .vStr " Food ", .vNull, .vNull, .vNull⟩

/-- Example row with a missing category cell. -/
def exRowUncat : RawRow :=
  ⟨.vNull, .vStr "100", .vNull, .vNull, .vNull, .vNull⟩

/-- Example row whose amount cell is the unparseable text `"N/A"`. -/
def exRowNA : RawRow :=
  ⟨.vStr "04/02/2024", .vStr "N/A", .vStr "Misc", .vNull, .vNull, .vNull⟩

/-- Example classified two-row table (one income, one expense). -/
def exDf : List ClassifiedRow :=
  classify_transactions ([exRowA, exRowB].map normalizeRow)

/-! ### Helper lemmas -/

lemma toDatetime_idem (v : Value) : toDatetime (toDatetime v) = toDatetime v := by
  cases v with
  | vNull => rfl
  | vDate t => rfl
  | vNum q => rfl
  | vStr s => cases h : parseDate s <;> simp [toDatetime, h]

lemma toNumeric_idem (v : Value) : toNumeric (toNumeric v) = toNumeric v := by
  cases v with
  | vNull => rfl
  | vDate t => rfl
  | vNum q => rfl
  | vStr s => cases h : parseAmount s <;> simp [toNumeric, h]

lemma fillStr_idem (d : String) (v : Value) :
    fillStr d (fillStr d v) = fillStr d v := by
  cases v <;> rfl

lemma normalizeRow_idem (r : RawRow) :
    normalizeRow (normalizeRow r) = normalizeRow r := by
  simp [normalizeRow, toDatetime_idem, toNumeric_idem, fillStr_idem]

lemma gtZero_iff (v : Value) :
    gtZero v = true ↔ ∃ q, v = Value.vNum q ∧ 0 < q := by
  cases v <;> simp [gtZero]

lemma ltZero_iff (v : Value) :
    ltZero v = true ↔ ∃ q, v = Value.vNum q ∧ q < 0 := by
  cases v <;> simp [ltZero]

lemma not_gtZero_and_ltZero (v : Value) :
    ¬(gtZero v = true ∧ ltZero v = true) := by
  rintro ⟨h1, h2⟩
  obtain ⟨q, rfl, hq⟩ := (gtZero_iff v).mp h1
  obtain ⟨p, hpq, hp⟩ := (ltZero_iff _).mp h2
  rw [Value.vNum.injEq] at hpq
  subst hpq
  exact absurd (hq.trans hp) (lt_irrefl _)

lemma flags_false_of_null_or_zero (v : Value)
    (h : v = Value.vNull ∨ v = Value.vNum 0) :
    gtZero v = false ∧ ltZero v = false := by
  rcases h with rfl | rfl <;> simp [gtZero, ltZero]

lemma sum_map_filter_ite {α : Type} (p : α → Bool) (f : α → Rat) (l : List α) :
    ((l.filter p).map f).sum = (l.map (fun a => if p a then f a else 0)).sum := by
  induction l with
  | nil => rfl
  | cons x xs ih => cases hx : p x <;> simp [List.filter_cons, hx, ih]

lemma amtSum_filter_not (p : ClassifiedRow → Bool) (l : List ClassifiedRow) :
    amtSum (l.filter p) + amtSum (l.filter (fun a => !p a)) = amtSum l := by
  induction l with
  | nil => simp [amtSum]
  | cons x xs ih =>
    cases hx : p x <;> simp [amtSum, List.filter_cons, hx] at ih ⊢ <;> linarith

lemma sum_catSum_cover :
    ∀ (cats : List Value) (df : List ClassifiedRow), cats.Nodup →
      (∀ r ∈ df, r.row.category ∈ cats) →
      (cats.map (catSum df)).sum = amtSum df := by
  intro cats
  induction cats with
  | nil =>
    intro df _ hcov
    have hdf : df = [] :=
      List.eq_nil_iff_forall_not_mem.mpr
        (fun r hr => absurd (hcov r hr) (List.not_mem_nil _))
    subst hdf
    simp [amtSum]
  | cons c cs ih =>
    intro df hnd hcov
    have hc_not : c ∉ cs := (List.nodup_cons.mp hnd).1
    have hnd2 : cs.Nodup := (List.nodup_cons.mp hnd).2
    have htail : cs.map (catSum df)
        = cs.map (catSum (df.filter (fun r => !(r.row.category == c)))) := by
      apply List.map_congr_left
      intro d hd
      have hne : d ≠ c := fun hh => hc_not (hh ▸ hd)
      simp only [catSum]
      congr 1
      rw [List.filter_filter]
      apply List.filter_congr
      intro x _
      cases hx : (x.row.category == d) with
      | false => simp [hx]
      | true =>
        have hxd : x.row.category = d := by simpa using hx
        simp [hx, hxd, hne]
    have hcov2 : ∀ r ∈ df.filter (fun r => !(r.row.category == c)),
        r.row.category ∈ cs := by
      intro r hr
      have h1 := List.mem_filter.mp hr
      have h3 : r.row.category ≠ c := by simpa using h1.2
      rcases List.mem_cons.mp (hcov r h1.1) with h4 | h4
      · exact absurd h4 h3
      · exact h4
    have hsplit := amtSum_filter_not (fun r => r.row.category == c) df
    calc ((c :: cs).map (catSum df)).sum
        = catSum df c + (cs.map (catSum df)).sum := by simp
      _ = catSum df c
          + (cs.map (catSum (df.filter (fun r => !(r.row.category == c))))).sum := by
            rw [htail]
      _ = catSum df c + amtSum (df.filter (fun r => !(r.row.category == c))) := by
            rw [ih (df.filter (fun r => !(r.row.category == c))) hnd2 hcov2]
      _ = amtSum df := hsplit

lemma amt_pos_neg (v : Value) :
    amt v = (if gtZero v then amt v else 0) + (if ltZero v then amt v else 0) := by
  cases v with
  | vNull => simp [amt, gtZero, ltZero]
  | vStr s => simp [amt, gtZero, ltZero]
  | vDate t => simp [amt, gtZero, ltZero]
  | vNum q =>
    rcases lt_trichotomy q 0 with h | h | h
    · simp [amt, gtZero, ltZero, h, lt_asymm h]
    · simp [amt, gtZero, ltZero, h]
    · simp [amt, gtZero, ltZero, h, lt_asymm h]

lemma total_income_cons (x : ClassifiedRow) (l : List ClassifiedRow) :
    total_income (x :: l)
      = (if x.is_income then amt x.row.amount else 0) + total_income l := by
  cases hx : x.is_income <;> simp [total_income, amtSum, List.filter_cons, hx]

lemma total_expense_cons (x : ClassifiedRow) (l : List ClassifiedRow) :
    total_expense (x :: l)
      = (if x.is_expense then amt x.row.amount else 0) + total_expense l := by
  cases hx : x.is_expense <;> simp [total_expense, amtSum, List.filter_cons, hx]

lemma catSum_cons (x : ClassifiedRow) (l : List ClassifiedRow) (c : Value) :
    catSum (x :: l) c
      = (if x.row.category == c then amt x.row.amount else 0) + catSum l c := by
  cases hx : (x.row.category == c) <;>
    simp [catSum, amtSum, List.filter_cons, hx]

lemma total_income_append (a b : List ClassifiedRow) :
    total_income (a ++ b) = total_income a + total_income b := by
  simp [total_income, amtSum, List.filter_append]

lemma total_expense_append (a b : List ClassifiedRow) :
    total_expense (a ++ b) = total_expense a + total_expense b := by
  simp [total_expense, amtSum, List.filter_append]

lemma catSum_append (a b : List ClassifiedRow) (c : Value) :
    catSum (a ++ b) c = catSum a c + catSum b c := by
  simp [catSum, amtSum, List.filter_append]

lemma amtSum_classify (df0 : List RawRow) :
    amtSum (classify_transactions df0)
      = total_income (classify_transactions df0)
        + total_expense (classify_transactions df0) := by
  induction df0 with
  | nil => simp [classify_transactions, amtSum, total_income, total_expense]
  | cons r rs ih =>
    simp only [classify_transactions, List.map_cons] at ih ⊢
    rw [total_income_cons, total_expense_cons]
    simp only [amtSum, List.map_cons, List.sum_cons]
    have hv := amt_pos_neg r.amount
    simp only [amtSum] at ih
    linarith [hv, ih]

lemma classified_cat_vStr {raw : List RawRow} {r : ClassifiedRow}
    (hr : r ∈ classify_transactions (raw.map normalizeRow)) :
    ∃ s, r.row.category = Value.vStr s := by
  obtain ⟨a, ha, rfl⟩ := List.mem_map.mp hr
  obtain ⟨b, hb, rfl⟩ := List.mem_map.mp ha
  cases hb2 : b.category <;> simp [normalizeRow, fillStr, hb2]

lemma catSums_sum_eq_amtSum (df : List ClassifiedRow)
    (hcov : ∀ r ∈ df, r.row.category ∈ categories df) :
    ((category_sums df).map Prod.snd).sum = amtSum df := by
  calc ((category_sums df).map Prod.snd).sum
      = (((categories df).map (fun c => (c, catSum df c))).map Prod.snd).sum :=
        List.Perm.sum_eq ((List.mergeSort_perm _ _).map Prod.snd)
    _ = ((categories df).map (catSum df)).sum := by rw [List.map_map]; rfl
    _ = amtSum df := sum_catSum_cover _ _ (List.nodup_dedup _) hcov

lemma snd_eq_of_mem_category_sums {df : List ClassifiedRow} {p : Value × Rat}
    (h : p ∈ category_sums df) : p.2 = catSum df p.1 := by
  obtain ⟨c, hc, rfl⟩ := List.mem_map.mp (List.mem_mergeSort.mp h)
  rfl

/-! ### Claims -/

/-- Claim C4: For every row, the classifier sets `is_income` to (amount > 0) and
`is_expense` to (amount < 0); rows with null or zero amount get both flags
false, the two flags are never both true, and classification is a pure
total function of the row. -/
theorem spec_C4 (df : List RawRow) (cr : ClassifiedRow)
    (h : cr ∈ classify_transactions df) :
    (cr.is_income = true ↔ ∃ q, cr.row.amount = Value.vNum q ∧ 0 < q) ∧
    (cr.is_expense = true ↔ ∃ q, cr.row.amount = Value.vNum q ∧ q < 0) ∧
    ¬(cr.is_income = true ∧ cr.is_expense = true) ∧
    ((cr.row.amount = Value.vNull ∨ cr.row.amount = Value.vNum 0) →
      cr.is_income = false ∧ cr.is_expense = false) := by
  obtain ⟨r, hr, rfl⟩ := List.mem_map.mp h
  exact ⟨gtZero_iff r.amount, ltZero_iff r.amount,
    not_gtZero_and_ltZero r.amount, flags_false_of_null_or_zero r.amount⟩

/-- Witness for C4 at a concrete classified row with amount −30. -/
theorem spec_C4_witness :
    ((⟨exRawNeg, false, true⟩ : ClassifiedRow).is_expense = true ↔
      ∃ q, (⟨exRawNeg, false, true⟩ : ClassifiedRow).row.amount = Value.vNum q ∧ q < 0) :=
  (spec_C4 [exRawNeg] ⟨exRawNeg, false, true⟩ (by decide)).2.1

/-- Claim C6: Loading a table missing required columns (after trimming and
lowercasing the labels) fails with a schema error naming every missing
column; with columns `{date, amount, category}` only, exactly
`["transaction type", "transaction details", "merchant name"]`. -/
theorem spec_C6 :
    (∀ cols rows, missingCols cols ≠ [] →
      load_csv cols rows = Except.error (LoadError.schemaError (missingCols cols))) ∧
    missingCols ["date", "amount", "category"] =
      ["transaction type", "transaction details", "merchant name"] := by
  constructor
  · intro cols rows h
    simp only [load_csv]
    rw [if_pos h]
  · decide

/-- Witness for C6: the schema check at the concrete three-column table. -/
theorem spec_C6_witness :
    load_csv ["date", "amount", "category"] [] =
      Except.error (LoadError.schemaError
        ["transaction type", "transaction details", "merchant name"]) := by
  have h1 := spec_C6.1 ["date", "amount", "category"] [] (by decide)
  rw [spec_C6.2] at h1
  exact h1

/-- Claim C7: Field normalization is idempotent: normalizing a normalized table
again produces the identical table. -/
theorem spec_C7 (rows : List RawRow) :
    (rows.map normalizeRow).map normalizeRow = rows.map normalizeRow := by
  rw [List.map_map]
  exact List.map_congr_left (fun r _ => normalizeRow_idem r)

/-- Claim C8 counterexample: the code does not trim the category text — a
category cell `" Food "` keeps its surrounding whitespace, so the claimed
"trimmed text of the field" is wrong. -/
theorem spec_C8_counterexample :
    (normalizeRow exRowTrim).category = Value.vStr " Food " ∧
    Value.vStr " Food " ≠ Value.vStr (⟨trimChars " Food ".data⟩ : String) := by
  constructor
  · rfl
  · decide

/-- Claim C8 as amended: a row whose category cell is missing is assigned the
literal string "Uncategorized" and its amount is included in the category total of that bucket; otherwise the category becomes the text of the field
unchanged (not trimmed). -/
theorem spec_C8 (r : RawRow) (rows : List RawRow) :
    (r.category = Value.vNull →
      (normalizeRow r).category = Value.vStr "Uncategorized" ∧
      catSum (classify_transactions ((r :: rows).map normalizeRow))
          (Value.vStr "Uncategorized")
        = amt (toNumeric r.amount)
          + catSum (classify_transactions (rows.map normalizeRow))
              (Value.vStr "Uncategorized")) ∧
    (∀ s, r.category = Value.vStr s →
      (normalizeRow r).category = Value.vStr s) := by
  constructor
  · intro h
    have hcat : (normalizeRow r).category = Value.vStr "Uncategorized" := by
      simp [normalizeRow, h, fillStr]
    refine ⟨hcat, ?_⟩
    simp [classify_transactions, List.map_cons, catSum, amtSum,
      List.filter_cons, hcat]
    rfl
  · intro s hs
    simp [normalizeRow, hs, fillStr]

/-- Witness for C8 at a concrete row with a missing category cell. -/
theorem spec_C8_witness :
    (normalizeRow exRowUncat).category = Value.vStr "Uncategorized" ∧
    catSum (classify_transactions ([exRowUncat].map normalizeRow))
        (Value.vStr "Uncategorized")
      = amt (toNumeric exRowUncat.amount)
        + catSum (classify_transactions (([] : List RawRow).map normalizeRow))
            (Value.vStr "Uncategorized") :=
  (spec_C8 exRowUncat []).1 rfl

/-- Claim C10: Classification only adds the two flag columns: it leaves every
other field of every row unchanged and preserves the number and order of
rows. -/
theorem spec_C10 (df : List RawRow) :
    (classify_transactions df).map ClassifiedRow.row = df ∧
    (classify_transactions df).length = df.length := by
  constructor
  · induction df with
    | nil => rfl
    | cons r rs ih => simp_all [classify_transactions]
  · simp [classify_transactions]

/-- Claim C1: for every classified table, the total income of the report is the sum of
`amount` over rows flagged income, the total expense the analogous sum
for the expense flag, and the net their sum. -/
theorem spec_C1 (df0 : List RawRow) :
    (report df0).income
      = ((classify_transactions df0).map
          (fun r => if r.is_income then amt r.row.amount else 0)).sum ∧
    (report df0).expense
      = ((classify_transactions df0).map
          (fun r => if r.is_expense then amt r.row.amount else 0)).sum ∧
    (report df0).net = (report df0).income + (report df0).expense := by
  refine ⟨?_, ?_, rfl⟩
  · exact sum_map_filter_ite (fun r => r.is_income)
      (fun r => amt r.row.amount) (classify_transactions df0)
  · exact sum_map_filter_ite (fun r => r.is_expense)
      (fun r => amt r.row.amount) (classify_transactions df0)

/-- Claim C2: For every normalized-and-classified table, the per-category totals
(nulls contributing 0) summed over all categories equal total income plus
total expense. -/
theorem spec_C2 (raw : List RawRow) :
    ((category_sums (classify_transactions (raw.map normalizeRow))).map Prod.snd).sum
      = total_income (classify_transactions (raw.map normalizeRow))
        + total_expense (classify_transactions (raw.map normalizeRow)) := by
  have hcov : ∀ r ∈ classify_transactions (raw.map normalizeRow),
      r.row.category ∈ categories (classify_transactions (raw.map normalizeRow)) := by
    intro r hr
    obtain ⟨s, hs⟩ := classified_cat_vStr hr
    simp only [categories, List.mem_dedup, List.mem_filter, List.mem_map]
    exact ⟨⟨r, hr, rfl⟩, by simp [hs]⟩
  exact (catSums_sum_eq_amtSum _ hcov).trans (amtSum_classify _)

/-- Claim C3: For every classified table, the expense category totals are exactly
the per-category totals with strictly negative sum — the category total of every member is negative, members are category-total pairs, no entry
with non-negative total appears — and they are ordered ascending by sum. -/
theorem spec_C3 (df : List ClassifiedRow) :
    (∀ p ∈ spent_per_category df,
      p ∈ category_sums df ∧ p.2 = catSum df p.1 ∧ catSum df p.1 < 0) ∧
    (∀ p ∈ category_sums df, p.2 < 0 → p ∈ spent_per_category df) ∧
    (spent_per_category df).Pairwise (fun a b => a.2 ≤ b.2) := by
  refine ⟨?_, ?_, ?_⟩
  · intro p hp
    have h2 := List.mem_filter.mp (List.mem_mergeSort.mp hp)
    have hneg : p.2 < 0 := by simpa using h2.2
    have hsnd := snd_eq_of_mem_category_sums h2.1
    exact ⟨h2.1, hsnd, hsnd ▸ hneg⟩
  · intro p hp hneg
    exact List.mem_mergeSort.mpr (List.mem_filter.mpr ⟨hp, by simpa using hneg⟩)
  · have hs := @List.sorted_mergeSort (Value × Rat)
      (fun a b => decide (a.2 ≤ b.2))
      (fun a b c hab hbc => by
        simp only [decide_eq_true_eq] at hab hbc ⊢
        exact le_trans hab hbc)
      (fun a b => by rcases le_total a.2 b.2 with h | h <;> simp [h])
      ((category_sums df).filter (fun p => decide (p.2 < 0)))
    exact hs.imp (fun h => by simpa using h)

/-- Witness for C3: on the concrete two-row table, the Food total −30 is a
negative category total and appears among the expense category totals. -/
theorem spec_C3_witness :
    (⟨Value.vStr "Food", (-30 : Rat)⟩ : Value × Rat) ∈ spent_per_category exDf := by
  have hmem : (⟨Value.vStr "Food", (-30 : Rat)⟩ : Value × Rat) ∈ category_sums exDf := by
    apply List.mem_mergeSort.mpr
    have hc : categories exDf = [Value.vStr "Salary", Value.vStr "Food"] := by decide
    rw [hc]
    simp only [List.map_cons, List.map_nil, List.mem_cons]
    right
    left
    have : catSum exDf (Value.vStr "Food") = -30 := by
      simp [exDf, catSum, amtSum, classify_transactions, exRowA, exRowB,
        normalizeRow, toNumeric, parseAmount, trimChars, splitOnChar,
        digitsVal?, isSpaceChar, amt, fillStr, List.filter_cons]
    rw [this]
  exact (spec_C3 exDf).2.1 _ hmem (by norm_num)

/-- Claim C9: A row whose amount text is unparseable survives normalization with
a null amount, gets both classification flags false, and contributes 0 to
total income, total expense, net, and every per-category total. -/
theorem spec_C9 (r : RawRow) (pre post : List RawRow) (s : String)
    (hs : r.amount = Value.vStr s) (hp : parseAmount s = none) :
    (normalizeRow r).amount = Value.vNull ∧
    (pre ++ r :: post).map normalizeRow
      = pre.map normalizeRow ++ normalizeRow r :: post.map normalizeRow ∧
    gtZero (normalizeRow r).amount = false ∧
    ltZero (normalizeRow r).amount = false ∧
    total_income (classify_transactions ((pre ++ r :: post).map normalizeRow))
      = total_income (classify_transactions ((pre ++ post).map normalizeRow)) ∧
    total_expense (classify_transactions ((pre ++ r :: post).map normalizeRow))
      = total_expense (classify_transactions ((pre ++ post).map normalizeRow)) ∧
    (total_income (classify_transactions ((pre ++ r :: post).map normalizeRow))
        + total_expense (classify_transactions ((pre ++ r :: post).map normalizeRow))
      = total_income (classify_transactions ((pre ++ post).map normalizeRow))
        + total_expense (classify_transactions ((pre ++ post).map normalizeRow))) ∧
    ∀ c, catSum (classify_transactions ((pre ++ r :: post).map normalizeRow)) c
      = catSum (classify_transactions ((pre ++ post).map normalizeRow)) c := by
  have hnull : (normalizeRow r).amount = Value.vNull := by
    simp [normalizeRow, toNumeric, hs, hp]
  have hmap : (pre ++ r :: post).map normalizeRow
      = pre.map normalizeRow ++ normalizeRow r :: post.map normalizeRow := by
    simp
  have hclass : classify_transactions ((pre ++ r :: post).map normalizeRow)
      = classify_transactions (pre.map normalizeRow)
        ++ (⟨normalizeRow r, gtZero (normalizeRow r).amount,
              ltZero (normalizeRow r).amount⟩ : ClassifiedRow)
          :: classify_transactions (post.map normalizeRow) := by
    rw [hmap]
    simp [classify_transactions]
  have hclass2 : classify_transactions ((pre ++ post).map normalizeRow)
      = classify_transactions (pre.map normalizeRow)
        ++ classify_transactions (post.map normalizeRow) := by
    simp [classify_transactions]
  have hti : total_income (classify_transactions ((pre ++ r :: post).map normalizeRow))
      = total_income (classify_transactions ((pre ++ post).map normalizeRow)) := by
    rw [hclass, hclass2, total_income_append, total_income_append,
      total_income_cons]
    simp [hnull, gtZero]
  have hte : total_expense (classify_transactions ((pre ++ r :: post).map normalizeRow))
      = total_expense (classify_transactions ((pre ++ post).map normalizeRow)) := by
    rw [hclass, hclass2, total_expense_append, total_expense_append,
      total_expense_cons]
    simp [hnull, ltZero]
  refine ⟨hnull, hmap, by rw [hnull]; rfl, by rw [hnull]; rfl, hti, hte,
    by rw [hti, hte], ?_⟩
  intro c
  rw [hclass, hclass2, catSum_append, catSum_append, catSum_cons]
  simp [hnull, amt]

/-- Witness for C9 at a concrete row with amount text `"N/A"`. -/
theorem spec_C9_witness :
    (normalizeRow exRowNA).amount = Value.vNull ∧
    total_income (classify_transactions (([] ++ exRowNA :: []).map normalizeRow))
      = total_income (classify_transactions ((([] : List RawRow) ++ []).map normalizeRow)) :=
  ⟨(spec_C9 exRowNA [] [] "N/A" rfl (by decide)).1,
   (spec_C9 exRowNA [] [] "N/A" rfl (by decide)).2.2.2.2.1⟩

end BudgetTracker
